import Mathlib

/-!
Verification development for the moltslack coordination engine.

The definitions below are a shallow embedding of the TypeScript sources:
`src/services/auth-service.ts` (AuthService), `src/services/channel-service.ts`
(ChannelService), the MessageService, the PresenceService, and the
acknowledgment protocol of `src/relay/relay-client.ts` (RelayClient).
JavaScript `Map` objects are embedded as association lists, thrown errors as
`Except`-style results paired with the (unchanged) state, and wall-clock
timestamps as explicit numeric parameters.  External library calls
(`crypto.createHmac`, `jwt.sign`) are idealized as injective constructors,
which models collision-free MACs.
-/

namespace Moltslack

/-- Lookup in an association list, mirroring JavaScript `Map.get`. -/
def assocFind {α : Type} (l : List (String × α)) (k : String) : Option α :=
  match l.find? (fun kv => kv.1 = k) with
  | some kv => some kv.2
  | none => none

/-- Update or insert a binding, mirroring JavaScript `Map.set`. -/
def assocSet {α : Type} (l : List (String × α)) (k : String) (v : α) :
    List (String × α) :=
  match l with
  | [] => [(k, v)]
  | kv :: rest =>
      if kv.1 = k then (k, v) :: rest else kv :: assocSet rest k v

/-- Membership test, mirroring JavaScript `Map.has`. -/
def assocHas {α : Type} (l : List (String × α)) (k : String) : Bool :=
  (assocFind l k).isSome

/-! ## AuthEngine: `src/services/auth-service.ts` -/

/-- Action names of the permission model (`'read' | 'write' | 'admin'`). -/
inductive Action : Type
  | read
  | write
  | admin
deriving DecidableEq, BEq, Repr

/-- `Permission` from `src/models/types.ts`: a resource pattern plus the
set of allowed actions. -/
structure Permission : Type where
  resource : String
  actions : List Action
deriving DecidableEq, Repr

/-- `AuthService.matchResource`: pattern `*` matches everything, an exact
equal pattern matches, and a pattern ending in `:*` matches any resource
starting with the pattern minus the trailing `*`. -/
def matchResource (pattern resource : String) : Bool :=
  if pattern = "*" then true
  else if pattern = resource then true
  else if pattern.endsWith ":*" then resource.startsWith (pattern.dropRight 1)
  else false

/-- `AuthService.checkPermissions`: scan the permission list in order; a
permission authorizes when its resource pattern matches and its action set
contains the requested action or `admin`. -/
def checkPermissions : List Permission → String → Action → Bool
  | [], _, _ => false
  | perm :: rest, resource, action =>
      if matchResource perm.resource resource then
        if perm.actions.contains action || perm.actions.contains Action.admin then
          true
        else
          checkPermissions rest resource action
      else
        checkPermissions rest resource action

/-- Default token lifetime of `AuthService` (24 hours, in milliseconds). -/
def DEFAULT_TOKEN_EXPIRY : Nat := 24 * 60 * 60 * 1000

/-- The 30-day cap recorded in `src/schemas/validation.ts`
(`TOKEN_MAX_LIFETIME_SECONDS`), converted to milliseconds. -/
def TOKEN_MAX_LIFETIME_MS : Nat := 30 * 24 * 60 * 60 * 1000

/-- Configuration state of `AuthService`: the signing secret and the token
lifetime in milliseconds fixed by the constructor. -/
structure AuthService : Type where
  secret : String
  tokenExpiry : Nat
deriving DecidableEq, Repr

/-- The `AuthService` constructor applies the 24h default when no lifetime is
supplied; it performs no validation of the supplied lifetime. -/
def AuthService.make (secret : String) (tokenExpiry : Option Nat) : AuthService :=
  { secret := secret, tokenExpiry := tokenExpiry.getD DEFAULT_TOKEN_EXPIRY }

/-- `TokenPayload` from `src/models/types.ts`. -/
structure TokenPayload : Type where
  agentId : String
  agentName : String
  permissions : List Permission
  issuedAt : Nat
  expiresAt : Nat
deriving DecidableEq, Repr

/-- Result of `jwt.sign(payload, secret, ... )`, idealized as an injective
record of its inputs (a JWT is decodable with the secret). -/
structure SignedToken : Type where
  payload : TokenPayload
  secret : String
  expiresInSeconds : Nat
deriving DecidableEq, Repr

/-- `AuthService.generateToken`: builds the payload with
`issuedAt = now` and `expiresAt = now + tokenExpiry` and signs it.  The
source performs no lifetime-cap check and has no failure path. -/
def AuthService.generateToken (svc : AuthService) (agentId agentName : String)
    (permissions : List Permission) (now : Nat) : SignedToken :=
  let payload : TokenPayload :=
    { agentId := agentId
      agentName := agentName
      permissions := permissions
      issuedAt := now
      expiresAt := now + svc.tokenExpiry }
  { payload := payload, secret := svc.secret
    expiresInSeconds := svc.tokenExpiry / 1000 }

/-! ## ChannelRegistry: `src/services/channel-service.ts` -/

/-- `ChannelType` from the schema models. -/
inductive ChannelType : Type
  | publicChannel
  | privateChannel
  | direct
  | broadcast
deriving DecidableEq, Repr

/-- `ChannelAccessLevel`: ordered `read < write < admin`. -/
inductive ChannelAccessLevel : Type
  | read
  | write
  | admin
deriving DecidableEq, Repr

/-- Index of a level in the array `[READ, WRITE, ADMIN]` used by
`accessLevelSatisfies` (`levels.indexOf`). -/
def levelIndex : ChannelAccessLevel → Nat
  | .read => 0
  | .write => 1
  | .admin => 2

/-- `ChannelService.accessLevelSatisfies`:
`levels.indexOf(actual) >= levels.indexOf(required)`. -/
def accessLevelSatisfies (actual required : ChannelAccessLevel) : Bool :=
  levelIndex required ≤ levelIndex actual

/-- `principalType` of an access rule. -/
inductive PrincipalType : Type
  | agent
  | role
  | all
deriving DecidableEq, Repr

/-- `ChannelAccessRule` from the schema models. -/
structure ChannelAccessRule : Type where
  principal : String
  principalType : PrincipalType
  level : ChannelAccessLevel
deriving DecidableEq, Repr

/-- `ChannelMetadata` (the fields the service touches). -/
structure ChannelMetadata : Type where
  displayName : String
  topic : Option String
  isArchived : Bool
  allowExternal : Bool
deriving DecidableEq, Repr

/-- `Channel` from the schema models (fields used by the service). -/
structure Channel : Type where
  id : String
  name : String
  projectId : String
  type : ChannelType
  accessRules : List ChannelAccessRule
  defaultAccess : Option ChannelAccessLevel
  metadata : ChannelMetadata
  createdBy : String
  createdAt : String
  memberCount : Nat
deriving DecidableEq, Repr

/-- `ChannelService.matchRule`: `all` matches any agent, `agent` matches only
the exact agent id, `role` matching is unimplemented (`TODO` in source). -/
def matchRule (rule : ChannelAccessRule) (agentId : String) : Bool :=
  if rule.principalType = PrincipalType.all then true
  else if rule.principalType = PrincipalType.agent ∧ rule.principal = agentId then true
  else false

/-- The rule-scanning loop of `ChannelService.checkAccess`: the first matching
rule decides via `accessLevelSatisfies`; `none` when no rule matches. -/
def checkRules : List ChannelAccessRule → String → ChannelAccessLevel → Option Bool
  | [], _, _ => none
  | rule :: rest, agentId, required =>
      if matchRule rule agentId then some (accessLevelSatisfies rule.level required)
      else checkRules rest agentId required

/-- `ChannelService.createDefaultAccessRules`. -/
def createDefaultAccessRules : ChannelType → List ChannelAccessRule
  | .publicChannel => [{ principal := "*", principalType := .all, level := .write }]
  | .privateChannel => []
  | .broadcast => [{ principal := "*", principalType := .all, level := .read }]
  | .direct => []

/-- Mutable state of `ChannelService`: the channel map, the name index, the
membership sets, and the subscribe/unsubscribe notifications pushed to the
relay client. -/
structure ChannelService : Type where
  channels : List (String × Channel)
  nameIndex : List (String × String)
  memberships : List (String × List String)
  projectId : String
  relaySubs : List (String × String)
  relayUnsubs : List (String × String)
deriving DecidableEq, Repr

/-- Typed failures thrown by the services (`throw new Error(...)`). -/
inductive ServiceError : Type
  | alreadyExists
  | permissionDenied
deriving DecidableEq, Repr

/-- `ChannelCreateInput` (the fields the claims exercise). -/
structure ChannelCreateInput : Type where
  name : String
  type : Option ChannelType
  topic : Option String
deriving DecidableEq, Repr

/-- `ChannelService.create`: reject a duplicate name with `AlreadyExists`,
otherwise install the channel with type-seeded access rules,
`defaultAccess = null` only for private channels, an empty membership set and
`memberCount = 0`.  The fresh id and the timestamp are passed explicitly. -/
def ChannelService.create (svc : ChannelService) (input : ChannelCreateInput)
    (createdBy : String) (id now : String) :
    Except ServiceError Channel × ChannelService :=
  if assocHas svc.nameIndex input.name then
    (Except.error ServiceError.alreadyExists, svc)
  else
    let channel : Channel :=
      { id := id
        name := input.name
        projectId := svc.projectId
        type := input.type.getD ChannelType.publicChannel
        accessRules := createDefaultAccessRules (input.type.getD ChannelType.publicChannel)
        defaultAccess :=
          if input.type = some ChannelType.privateChannel then none
          else some ChannelAccessLevel.read
        metadata :=
          { displayName := input.name, topic := input.topic
            isArchived := false, allowExternal := false }
        createdBy := createdBy
        createdAt := now
        memberCount := 0 }
    (Except.ok channel,
     { svc with
        channels := assocSet svc.channels id channel
        nameIndex := assocSet svc.nameIndex input.name id
        memberships := assocSet svc.memberships id [] })

/-- `ChannelService.checkAccess`: missing channel denies; otherwise the first
matching access rule decides, falling back to `defaultAccess`, and `null`
default access denies. -/
def ChannelService.checkAccess (svc : ChannelService) (channelId agentId : String)
    (requiredLevel : ChannelAccessLevel) : Bool :=
  match assocFind svc.channels channelId with
  | none => false
  | some channel =>
      match checkRules channel.accessRules agentId requiredLevel with
      | some verdict => verdict
      | none =>
          match channel.defaultAccess with
          | some lvl => accessLevelSatisfies lvl requiredLevel
          | none => false

/-- `ChannelService.join`: `false` for a missing channel, `PermissionDenied`
without read access, otherwise an idempotent add to the membership set that
refreshes `memberCount` and notifies the relay. -/
def ChannelService.join (svc : ChannelService) (channelId agentId : String) :
    Except ServiceError Bool × ChannelService :=
  match assocFind svc.channels channelId with
  | none => (Except.ok false, svc)
  | some channel =>
      if ¬ svc.checkAccess channelId agentId ChannelAccessLevel.read then
        (Except.error ServiceError.permissionDenied, svc)
      else
        match assocFind svc.memberships channelId with
        | none => (Except.ok false, svc)
        | some members =>
            if agentId ∈ members then (Except.ok true, svc)
            else
              let members := members ++ [agentId]
              (Except.ok true,
               { svc with
                  memberships := assocSet svc.memberships channelId members
                  channels := assocSet svc.channels channelId
                    { channel with memberCount := members.length }
                  relaySubs := svc.relaySubs ++ [(agentId, channelId)] })

/-- `ChannelService.leave`: `false` for a missing channel, otherwise an
idempotent removal that refreshes `memberCount` and notifies the relay. -/
def ChannelService.leave (svc : ChannelService) (channelId agentId : String) :
    Except ServiceError Bool × ChannelService :=
  match assocFind svc.channels channelId with
  | none => (Except.ok false, svc)
  | some channel =>
      match assocFind svc.memberships channelId with
      | none => (Except.ok false, svc)
      | some members =>
          if agentId ∈ members then
            let members := members.filter (fun m => m ≠ agentId)
            (Except.ok true,
             { svc with
                memberships := assocSet svc.memberships channelId members
                channels := assocSet svc.channels channelId
                  { channel with memberCount := members.length }
                relayUnsubs := svc.relayUnsubs ++ [(agentId, channelId)] })
          else (Except.ok true, svc)

/-- The empty `ChannelService` state before `createDefaultChannels` runs. -/
def ChannelService.empty (projectId : String) : ChannelService :=
  { channels := [], nameIndex := [], memberships := [], projectId := projectId
    relaySubs := [], relayUnsubs := [] }

/-- The `ChannelService` constructor: `createDefaultChannels` creates the
public `general` channel and the broadcast `announcements` channel. -/
def ChannelService.init (projectId idGeneral idAnnouncements now : String) :
    ChannelService :=
  let svc := ChannelService.empty projectId
  let svc := (svc.create
    { name := "general", type := some ChannelType.publicChannel
      topic := some "General discussion for all agents" } "system" idGeneral now).2
  (svc.create
    { name := "announcements", type := some ChannelType.broadcast
      topic := some "System-wide announcements" } "system" idAnnouncements now).2

/-- Operations of the channel registry exercised by the membership-count
invariant claim. -/
inductive ChannelOp : Type
  | create (input : ChannelCreateInput) (createdBy id now : String)
  | join (channelId agentId : String)
  | leave (channelId agentId : String)
deriving DecidableEq, Repr

/-- Apply one operation, keeping only the resulting state (thrown errors
leave the state unchanged, as in the source). -/
def ChannelService.applyOp (svc : ChannelService) : ChannelOp → ChannelService
  | .create input createdBy id now => (svc.create input createdBy id now).2
  | .join channelId agentId => (svc.join channelId agentId).2
  | .leave channelId agentId => (svc.leave channelId agentId).2

/-- Apply a sequence of operations. -/
def ChannelService.applyOps (svc : ChannelService) (ops : List ChannelOp) :
    ChannelService :=
  ops.foldl ChannelService.applyOp svc

/-- The membership-count invariant: every channel has a membership set, its
`memberCount` equals that set's size, and the set is duplicate-free. -/
def MemberCountInv (svc : ChannelService) : Prop :=
  ∀ channelId channel, assocFind svc.channels channelId = some channel →
    ∃ members, assocFind svc.memberships channelId = some members ∧
      channel.memberCount = members.length ∧ members.Nodup

/-! ## MessagePipeline: the `MessageService` source file -/

/-- `MessageType` from the schema models. -/
inductive MessageType : Type
  | text
  | system
  | command
  | event
  | file
  | reaction
  | threadReply
deriving DecidableEq, Repr

/-- `MessageDeliveryStatus` from the schema models. -/
inductive MessageDeliveryStatus : Type
  | pending
  | sent
  | delivered
  | read
  | failed
deriving DecidableEq, Repr

/-- `targetType` of a message. -/
inductive TargetType : Type
  | channel
  | agent
  | broadcast
deriving DecidableEq, Repr

/-- `MessageMention`: `extractMentions` records the mention kind, the match
offset and the match length; `targetId` is never resolved. -/
structure MessageMention : Type where
  type : String
  targetId : Option String
  startIndex : Nat
  length : Nat
deriving DecidableEq, Repr

/-- `MessageAttachment` from the schema models. -/
structure MessageAttachment : Type where
  id : String
  mimeType : String
  filename : String
  sizeBytes : Nat
  url : String
  contentHash : String
deriving DecidableEq, Repr

/-- `MessageContent`: text, optional structured data (values modelled as
opaque strings), derived mentions, attachments. -/
structure MessageContent : Type where
  text : String
  data : Option (List (String × String))
  mentions : List MessageMention
  attachments : List MessageAttachment
deriving DecidableEq, Repr

/-- The JSON payload `JSON.stringify(\x7b id, senderId, content, sentAt \x7d)`
hashed by `signMessage`, kept structured (the serialization is injective on
these fields). -/
structure SignPayload : Type where
  id : String
  senderId : String
  content : MessageContent
  sentAt : String
deriving DecidableEq, Repr

/-- Result of `crypto.createHmac('sha256', signingKey).update(payload)`,
idealized as an injective record of key and payload (collision-free MAC). -/
structure HmacSig : Type where
  key : String
  payload : SignPayload
deriving DecidableEq, Repr

/-- `MessageService.signMessage`. -/
def signMessage (signingKey id senderId : String) (content : MessageContent)
    (sentAt : String) : HmacSig :=
  { key := signingKey
    payload := { id := id, senderId := senderId, content := content, sentAt := sentAt } }

/-- `Message` from the schema models. -/
structure Message : Type where
  id : String
  projectId : String
  targetId : String
  targetType : TargetType
  senderId : String
  type : MessageType
  content : MessageContent
  threadId : Option String
  correlationId : Option String
  signature : HmacSig
  deliveryStatus : MessageDeliveryStatus
  sentAt : String
  editedAt : Option String
  deletedAt : Option String
deriving DecidableEq, Repr

/-- `MessageSendInput`. -/
structure MessageSendInput : Type where
  targetId : String
  targetType : TargetType
  type : Option MessageType
  text : String
  data : Option (List (String × String))
  threadId : Option String
  correlationId : Option String
deriving DecidableEq, Repr

/-- An outbound push to the relay client recorded by the pipeline
(`broadcastToChannel`, `sendToAgent`, `broadcast`, `emitRelayEvent`). -/
inductive RelayPush : Type
  | toChannel (channelId : String) (message : Message)
  | toAgent (agentId : String) (message : Message)
  | broadcastAll (message : Message)
  | relayEvent (eventType source target : String) (messageId : String)
deriving DecidableEq, Repr

/-- JavaScript word characters (`\w` is `[A-Za-z0-9_]`). -/
def isWordChar (c : Char) : Bool :=
  c.isAlphanum || c = '_'

/-- Recursive scan behind `extractMentions`, mirroring repeated
`/@(\w+)/g.exec`: at each `@` followed by at least one word character a
mention is recorded with the match offset and the full match length, and the
scan resumes after the match.  The scan consumes at least one character per
step, so a fuel equal to the text length never runs out. -/
def extractMentionsAux : Nat → List Char → Nat → List MessageMention
  | 0, _, _ => []
  | _, [], _ => []
  | fuel + 1, c :: rest, i =>
      if c = '@' then
        let word := rest.takeWhile isWordChar
        if word.isEmpty then extractMentionsAux fuel rest (i + 1)
        else
          { type := if word = "all".data ∨ word = "here".data then "all" else "agent"
            targetId := none
            startIndex := i
            length := word.length + 1 } ::
          extractMentionsAux fuel (rest.drop word.length) (i + word.length + 1)
      else extractMentionsAux fuel rest (i + 1)

/-- `MessageService.extractMentions`: scan the text for `@word` matches;
mention type is `all` for `@all`/`@here`, else `agent`. -/
def extractMentions (text : String) : List MessageMention :=
  extractMentionsAux text.data.length text.data 0

/-- Mutable state of `MessageService`: the message map, the per-channel and
per-thread indexes, the signing key, the optional channel service
collaborator, and the pushes handed to the relay. -/
structure MessageService : Type where
  messages : List (String × Message)
  channelMessages : List (String × List String)
  threadMessages : List (String × List String)
  projectId : String
  signingKey : String
  channelService : Option ChannelService
  relayPushes : List RelayPush
deriving DecidableEq, Repr

/-- `MessageService.getById`. -/
def MessageService.getById (svc : MessageService) (id : String) : Option Message :=
  assocFind svc.messages id

/-- `broadcastMessage`: route the message to the relay by target type. -/
def MessageService.broadcastMessage (svc : MessageService) (message : Message) :
    MessageService :=
  let push :=
    match message.targetType with
    | .channel => RelayPush.toChannel message.targetId message
    | .agent => RelayPush.toAgent message.targetId message
    | .broadcast => RelayPush.broadcastAll message
  { svc with relayPushes := svc.relayPushes ++ [push] }

/-- Append a message id to a channel or thread index
(`if (!map.has(k)) map.set(k, []); map.get(k).push(id)`). -/
def pushIndex (index : List (String × List String)) (key id : String) :
    List (String × List String) :=
  match assocFind index key with
  | none => assocSet index key [id]
  | some ids => assocSet index key (ids ++ [id])

/-- The access-denial condition of `send`: a channel send by a sender without
write access on the target channel (checked through the channel service when
one is wired). -/
def MessageService.sendDenied (svc : MessageService) (input : MessageSendInput)
    (senderId : String) : Bool :=
  if input.targetType = TargetType.channel then
    match svc.channelService with
    | some cs => ! cs.checkAccess input.targetId senderId ChannelAccessLevel.write
    | none => false
  else false

/-- The content built by `send`: input text and data, extracted mentions,
empty attachments. -/
def MessageService.sentContent (input : MessageSendInput) : MessageContent :=
  { text := input.text
    data := input.data
    mentions := extractMentions input.text
    attachments := [] }

/-- The message record built by `send`. -/
def MessageService.sentMessage (svc : MessageService) (input : MessageSendInput)
    (senderId id now : String) : Message :=
  { id := id
    projectId := svc.projectId
    targetId := input.targetId
    targetType := input.targetType
    senderId := senderId
    type := input.type.getD MessageType.text
    content := MessageService.sentContent input
    threadId := input.threadId
    correlationId := input.correlationId
    signature := signMessage svc.signingKey id senderId
      (MessageService.sentContent input) now
    deliveryStatus := MessageDeliveryStatus.sent
    sentAt := now
    editedAt := none
    deletedAt := none }

/-- `MessageService.send`: deny a channel send without write access,
otherwise build the content with extracted mentions, sign over
`(id, senderId, content, sentAt)`, set `deliveryStatus = sent`, store, index
by channel and thread, and push to the relay.  The fresh id and the
timestamp are passed explicitly. -/
def MessageService.send (svc : MessageService) (input : MessageSendInput)
    (senderId : String) (id now : String) :
    Except ServiceError Message × MessageService :=
  if svc.sendDenied input senderId then
    (Except.error ServiceError.permissionDenied, svc)
  else
    let message := svc.sentMessage input senderId id now
    let svc := { svc with messages := assocSet svc.messages id message }
    let svc :=
      if input.targetType = TargetType.channel then
        { svc with channelMessages := pushIndex svc.channelMessages input.targetId id }
      else svc
    let svc :=
      match input.threadId with
      | some threadId => { svc with threadMessages := pushIndex svc.threadMessages threadId id }
      | none => svc
    (Except.ok message, svc.broadcastMessage message)

/-- `MessageService.edit`: `false` for a missing message, `PermissionDenied`
for a non-sender editor; otherwise update the text, set `editedAt`, recompute
the signature over `(id, senderId, content, sentAt)`, and emit an edited
event. -/
def MessageService.edit (svc : MessageService) (messageId newText editorId : String)
    (now : String) : Except ServiceError Bool × MessageService :=
  match assocFind svc.messages messageId with
  | none => (Except.ok false, svc)
  | some message =>
      if message.senderId ≠ editorId then
        (Except.error ServiceError.permissionDenied, svc)
      else
        let content := { message.content with text := newText }
        let message :=
          { message with
              content := content
              editedAt := some now
              signature := signMessage svc.signingKey message.id message.senderId
                content message.sentAt }
        (Except.ok true,
         { svc with
            messages := assocSet svc.messages messageId message
            relayPushes := svc.relayPushes ++
              [RelayPush.relayEvent "message.sent" editorId message.targetId messageId] })

/-- `MessageService.markDelivered`: advance to `delivered` only from `sent`. -/
def MessageService.markDelivered (svc : MessageService) (messageId : String) :
    MessageService :=
  match assocFind svc.messages messageId with
  | some message =>
      if message.deliveryStatus = MessageDeliveryStatus.sent then
        { svc with
            messages := assocSet svc.messages messageId
              { message with deliveryStatus := MessageDeliveryStatus.delivered } }
      else svc
  | none => svc

/-- `MessageService.markRead`: unconditionally set `read` when the message
exists. -/
def MessageService.markRead (svc : MessageService) (messageId : String) :
    MessageService :=
  match assocFind svc.messages messageId with
  | some message =>
      { svc with
          messages := assocSet svc.messages messageId
            { message with deliveryStatus := MessageDeliveryStatus.read } }
  | none => svc

/-- `MessageService.verifySignature`: recompute the expected signature from
`(id, senderId, content, sentAt)` and compare. -/
def MessageService.verifySignature (svc : MessageService) (message : Message) :
    Bool :=
  message.signature =
    signMessage svc.signingKey message.id message.senderId message.content
      message.sentAt

/-! ## PresenceTracker: the `PresenceService` source file -/

/-- `PresenceStatus` from the schema models. -/
inductive PresenceStatus : Type
  | online
  | idle
  | busy
  | dnd
  | offline
deriving DecidableEq, Repr

/-- Heartbeat checker period (30s, milliseconds). -/
def HEARTBEAT_INTERVAL : Int := 30000

/-- Idle timeout (1 minute, milliseconds). -/
def IDLE_TIMEOUT : Int := 60000

/-- Offline timeout (2 minutes, milliseconds). -/
def OFFLINE_TIMEOUT : Int := 120000

/-- Connection metadata of a presence record. -/
structure PresenceConnection : Type where
  connectionId : String
  clientType : String
  clientVersion : String
  connectedAt : Int
deriving DecidableEq, Repr

/-- `Presence` from the schema models (timestamps as epoch milliseconds). -/
structure Presence : Type where
  agentId : String
  projectId : String
  status : PresenceStatus
  statusMessage : Option String
  lastHeartbeat : Int
  activeChannels : List String
  isTyping : Bool
  typingInChannel : Option String
  connection : PresenceConnection
deriving DecidableEq, Repr

/-- A presence broadcast pushed through `relayClient.broadcast`
(`broadcastPresenceChange`); `reason` and `previousStatus` are the optional
`extra` fields. -/
structure PresenceBroadcast : Type where
  agentId : String
  status : PresenceStatus
  reason : Option String
  previousStatus : Option PresenceStatus
  timestamp : Int
deriving DecidableEq, Repr

/-- Mutable state of `PresenceService`: the presence map and the broadcasts
pushed to the relay. -/
structure PresenceService : Type where
  presences : List (String × Presence)
  projectId : String
  broadcasts : List PresenceBroadcast
deriving DecidableEq, Repr

/-- The empty `PresenceService` state. -/
def PresenceService.empty (projectId : String) : PresenceService :=
  { presences := [], projectId := projectId, broadcasts := [] }

/-- `PresenceService.connect`: create the record with status `online` and
`lastHeartbeat = now`, then broadcast the change. -/
def PresenceService.connect (svc : PresenceService) (agentId : String)
    (connection : PresenceConnection) (now : Int) : Presence × PresenceService :=
  let presence : Presence :=
    { agentId := agentId
      projectId := svc.projectId
      status := PresenceStatus.online
      statusMessage := none
      lastHeartbeat := now
      activeChannels := []
      isTyping := false
      typingInChannel := none
      connection := connection }
  (presence,
   { svc with
      presences := assocSet svc.presences agentId presence
      broadcasts := svc.broadcasts ++
        [{ agentId := agentId, status := PresenceStatus.online, reason := none
           previousStatus := none, timestamp := now }] })

/-- `PresenceService.disconnect`: when a record exists, set status offline,
broadcast with the reason, then remove the record; a no-op otherwise. -/
def PresenceService.disconnect (svc : PresenceService) (agentId reason : String)
    (now : Int) : PresenceService :=
  match assocFind svc.presences agentId with
  | none => svc
  | some _ =>
      { svc with
          presences := svc.presences.filter (fun kv => kv.1 ≠ agentId)
          broadcasts := svc.broadcasts ++
            [{ agentId := agentId, status := PresenceStatus.offline
               reason := some reason, previousStatus := none, timestamp := now }] }

/-- `PresenceService.setStatus`: assign the status, status message, and
refresh `lastHeartbeat`; broadcast only on an actual status change. -/
def PresenceService.setStatus (svc : PresenceService) (agentId : String)
    (status : PresenceStatus) (statusMessage : Option String) (now : Int) :
    Bool × PresenceService :=
  match assocFind svc.presences agentId with
  | none => (false, svc)
  | some presence =>
      let previousStatus := presence.status
      let presence :=
        { presence with
            status := status, statusMessage := statusMessage, lastHeartbeat := now }
      let svc := { svc with presences := assocSet svc.presences agentId presence }
      if previousStatus ≠ status then
        (true,
         { svc with
            broadcasts := svc.broadcasts ++
              [{ agentId := agentId, status := status, reason := none
                 previousStatus := some previousStatus, timestamp := now }] })
      else (true, svc)

/-- `PresenceService.heartbeat`: refresh `lastHeartbeat`, optionally replace
`activeChannels`, and revive an `idle` agent back to `online`. -/
def PresenceService.heartbeat (svc : PresenceService) (agentId : String)
    (activeChannels : Option (List String)) (now : Int) :
    Bool × PresenceService :=
  match assocFind svc.presences agentId with
  | none => (false, svc)
  | some presence =>
      let presence := { presence with lastHeartbeat := now }
      let presence :=
        match activeChannels with
        | some channels => { presence with activeChannels := channels }
        | none => presence
      let svc := { svc with presences := assocSet svc.presences agentId presence }
      if presence.status = PresenceStatus.idle then
        (true, (svc.setStatus agentId PresenceStatus.online none now).2)
      else (true, svc)

/-- One iteration of the `checkHeartbeats` loop for a single agent id: past
`OFFLINE_TIMEOUT` a non-offline agent is disconnected with reason `timeout`,
else past `IDLE_TIMEOUT` an online agent is set idle. -/
def checkHeartbeatStep (now : Int) (svc : PresenceService) (agentId : String) :
    PresenceService :=
  match assocFind svc.presences agentId with
  | none => svc
  | some presence =>
      let elapsed := now - presence.lastHeartbeat
      if elapsed > OFFLINE_TIMEOUT ∧ presence.status ≠ PresenceStatus.offline then
        svc.disconnect agentId "timeout" now
      else if elapsed > IDLE_TIMEOUT ∧ presence.status = PresenceStatus.online then
        (svc.setStatus agentId PresenceStatus.idle none now).2
      else svc

/-- `PresenceService.checkHeartbeats`: scan every presence record and apply
the timeout transitions. -/
def PresenceService.checkHeartbeats (svc : PresenceService) (now : Int) :
    PresenceService :=
  (svc.presences.map Prod.fst).foldl (checkHeartbeatStep now) svc

/-! ## RelayHub acknowledgments: `src/relay/relay-client.ts` -/

/-- Default `timeoutMs` of `sendWithAck` (5000ms). -/
def DEFAULT_ACK_TIMEOUT : Nat := 5000

/-- The wire frame fields touched by `sendWithAck`. -/
structure WSMessage : Type where
  type : String
  correlationId : Option String
  timestamp : Int
deriving DecidableEq, Repr

/-- Acknowledgment-protocol state of `RelayClient`: the pending-ack table
(correlation ids), the armed timeout timers with their durations, and the
correlation ids whose resolve respectively reject callback has fired. -/
structure RelayAckState : Type where
  pendingAcks : List String
  activeTimers : List (String × Nat)
  resolvedAcks : List String
  rejectedAcks : List String
deriving DecidableEq, Repr

/-- The empty acknowledgment state. -/
def RelayAckState.empty : RelayAckState :=
  { pendingAcks := [], activeTimers := [], resolvedAcks := [], rejectedAcks := [] }

/-- `RelayClient.sendWithAck`: attach the fresh correlation id to the
message, arm a timeout timer, and register the pending ack. -/
def RelayAckState.sendWithAck (s : RelayAckState) (message : WSMessage)
    (correlationId : String) (timeoutMs : Nat) : WSMessage × RelayAckState :=
  ({ message with correlationId := some correlationId },
   { s with
      pendingAcks := correlationId :: s.pendingAcks
      activeTimers := (correlationId, timeoutMs) :: s.activeTimers })

/-- Events that touch the acknowledgment state: an inbound `ack` frame
(`handleAck`), a timeout timer firing, or another `sendWithAck` call. -/
inductive AckEvent : Type
  | ackFrame (correlationId : String)
  | timerFire (correlationId : String)
  | newPending (correlationId : String) (timeoutMs : Nat)
deriving DecidableEq, Repr

/-- Transition of the acknowledgment state.  `handleAck` resolves and removes
a pending entry after `clearTimeout`, and ignores unknown correlation ids; a
timer can fire only while armed (it is disarmed by `clearTimeout` and by
firing), and on firing removes the table entry and rejects; a new
`sendWithAck` registers its own id. -/
def AckEvent.step (s : RelayAckState) : AckEvent → RelayAckState
  | .ackFrame correlationId =>
      if correlationId ∈ s.pendingAcks then
        { s with
            activeTimers := s.activeTimers.filter (fun t => t.1 ≠ correlationId)
            resolvedAcks := correlationId :: s.resolvedAcks
            pendingAcks := s.pendingAcks.filter (fun c => c ≠ correlationId) }
      else s
  | .timerFire correlationId =>
      if s.activeTimers.any (fun t => t.1 = correlationId) then
        { s with
            activeTimers := s.activeTimers.filter (fun t => t.1 ≠ correlationId)
            pendingAcks := s.pendingAcks.filter (fun c => c ≠ correlationId)
            rejectedAcks := correlationId :: s.rejectedAcks }
      else s
  | .newPending correlationId timeoutMs =>
      { s with
          pendingAcks := correlationId :: s.pendingAcks
          activeTimers := (correlationId, timeoutMs) :: s.activeTimers }

/-- Run a sequence of acknowledgment events. -/
def runAckEvents (s : RelayAckState) (events : List AckEvent) : RelayAckState :=
  events.foldl AckEvent.step s

/-- Freshness of future correlation ids: no later `sendWithAck` reuses the
given id (`uuid()` never repeats). -/
def noReuse (correlationId : String) (events : List AckEvent) : Bool :=
  events.all fun e =>
    match e with
    | .newPending c _ => c ≠ correlationId
    | _ => true

/-- The timeout timer for a correlation id is armed: it has been set by
`setTimeout` and neither cleared by `clearTimeout` nor already fired. -/
def timerArmed (correlationId : String) (s : RelayAckState) : Prop :=
  ∃ t ∈ s.activeTimers, t.1 = correlationId

/-- A correlation id is pending: registered in the pending-ack table with an
armed timer and neither callback has fired. -/
def AckPending (correlationId : String) (s : RelayAckState) : Prop :=
  correlationId ∈ s.pendingAcks ∧ timerArmed correlationId s ∧
  correlationId ∉ s.resolvedAcks ∧ correlationId ∉ s.rejectedAcks

/-- A correlation id is settled: out of the pending-ack table, timer
disarmed, and exactly one of resolve/reject has fired. -/
def AckSettled (correlationId : String) (s : RelayAckState) : Prop :=
  (correlationId ∉ s.pendingAcks ∧ ¬ timerArmed correlationId s ∧
    correlationId ∈ s.resolvedAcks ∧ correlationId ∉ s.rejectedAcks) ∨
  (correlationId ∉ s.pendingAcks ∧ ¬ timerArmed correlationId s ∧
    correlationId ∉ s.resolvedAcks ∧ correlationId ∈ s.rejectedAcks)

/-- Every reachable acknowledgment state is either pending or settled. -/
def AckPhase (correlationId : String) (s : RelayAckState) : Prop :=
  AckPending correlationId s ∨ AckSettled correlationId s

/-! ## Concrete fixtures used by the witnesses -/

/-- A private channel with a single rule for agent `bob` and no default
access. -/
def channelFix : Channel :=
  { id := "c1"
    name := "secret"
    projectId := "p"
    type := ChannelType.privateChannel
    accessRules := [{ principal := "bob", principalType := PrincipalType.agent
                      level := ChannelAccessLevel.admin }]
    defaultAccess := none
    metadata := { displayName := "secret", topic := none
                  isArchived := false, allowExternal := false }
    createdBy := "lead"
    createdAt := "t0"
    memberCount := 0 }

/-- A channel registry holding only `channelFix`. -/
def channelSvcFix : ChannelService :=
  { channels := [("c1", channelFix)]
    nameIndex := [("secret", "c1")]
    memberships := [("c1", [])]
    projectId := "p"
    relaySubs := []
    relayUnsubs := [] }

/-- A message pipeline wired to `channelSvcFix`. -/
def msgSvcFix : MessageService :=
  { messages := []
    channelMessages := []
    threadMessages := []
    projectId := "p"
    signingKey := "k"
    channelService := some channelSvcFix
    relayPushes := [] }

/-- A send input targeting the private channel `c1`. -/
def sendInputChannelFix : MessageSendInput :=
  { targetId := "c1", targetType := TargetType.channel, type := none
    text := "hello", data := none, threadId := none, correlationId := none }

/-- A send input targeting agent `bob` directly (no access check). -/
def sendInputAgentFix : MessageSendInput :=
  { targetId := "bob", targetType := TargetType.agent, type := none
    text := "hi @bob", data := none, threadId := none, correlationId := none }

/-- Content of the stored fixture message. -/
def contentFix : MessageContent :=
  { text := "hello @bob", data := none, mentions := [], attachments := [] }

/-- A stored fixture message from `alice`, already delivered. -/
def messageDeliveredFix : Message :=
  { id := "m1"
    projectId := "p"
    targetId := "c1"
    targetType := TargetType.channel
    senderId := "alice"
    type := MessageType.text
    content := contentFix
    threadId := none
    correlationId := none
    signature := signMessage "k" "m1" "alice" contentFix "t0"
    deliveryStatus := MessageDeliveryStatus.delivered
    sentAt := "t0"
    editedAt := none
    deletedAt := none }

/-- A stored fixture message from `alice` with status `sent`. -/
def messageSentFix : Message :=
  { messageDeliveredFix with deliveryStatus := MessageDeliveryStatus.sent }

/-- A message pipeline holding `messageSentFix` and `messageDeliveredFix`. -/
def msgStoreFix : MessageService :=
  { messages := [("m1", messageSentFix), ("m2", messageDeliveredFix)]
    channelMessages := []
    threadMessages := []
    projectId := "p"
    signingKey := "k"
    channelService := none
    relayPushes := [] }

/-- Connection metadata of the presence fixture. -/
def connFix : PresenceConnection :=
  { connectionId := "cn", clientType := "api", clientVersion := "1.0.0"
    connectedAt := 0 }

/-- The presence record `connect` creates for agent `a` at time 0. -/
def presenceFix : Presence :=
  { agentId := "a"
    projectId := "p"
    status := PresenceStatus.online
    statusMessage := none
    lastHeartbeat := 0
    activeChannels := []
    isTyping := false
    typingInChannel := none
    connection := connFix }

/-- The presence service right after `connect("a")` at time 0. -/
def presenceSvcFix : PresenceService :=
  ((PresenceService.empty "p").connect "a" connFix 0).2

/-- A wire frame without a correlation id, as handed to `sendWithAck`. -/
def wsMessageFix : WSMessage :=
  { type := "message", correlationId := none, timestamp := 0 }

/-! ## Association-list lemmas -/

theorem assocFind_assocSet_self {α : Type} (l : List (String × α)) (k : String)
    (v : α) : assocFind (assocSet l k v) k = some v := by
  induction l with
  | nil => simp [assocSet, assocFind, List.find?]
  | cons kv rest ih =>
      by_cases h : kv.1 = k
      · simp [assocSet, h, assocFind, List.find?]
      · simp only [assocSet, if_neg h]
        simpa [assocFind, List.find?, h] using ih

theorem assocFind_assocSet_ne {α : Type} (l : List (String × α))
    (k k' : String) (v : α) (h : k ≠ k') :
    assocFind (assocSet l k v) k' = assocFind l k' := by
  induction l with
  | nil => simp [assocSet, assocFind, List.find?, h]
  | cons kv rest ih =>
      by_cases hk : kv.1 = k
      · simp [assocSet, hk, assocFind, List.find?, h, hk ▸ h]
      · simp only [assocSet, if_neg hk]
        by_cases hk' : kv.1 = k'
        · simp [assocFind, List.find?, hk']
        · simpa [assocFind, List.find?, hk'] using ih

/-! ## C2: permission evaluation -/

/-- C2: `checkPermissions(permissions, resource, action)` returns true iff
some permission in list order has a resource pattern matching the resource
(`*` matches everything, exact equality matches, a pattern ending in `:*`
matches any resource starting with the pattern minus the trailing `*`) and
its action set contains the requested action or `admin`; in particular the
single wildcard-admin permission authorizes every resource and action. -/
theorem checkPermissions_spec (perms : List Permission) (resource : String)
    (action : Action) :
    (checkPermissions perms resource action =
      perms.any (fun p => matchResource p.resource resource &&
        (p.actions.contains action || p.actions.contains Action.admin))) ∧
    checkPermissions [{ resource := "*", actions := [Action.admin] }]
      resource action = true := by
  constructor
  · induction perms with
    | nil => rfl
    | cons p rest ih =>
        simp only [checkPermissions, List.any_cons]
        by_cases hm : matchResource p.resource resource = true
        · cases hc : (p.actions.contains action || p.actions.contains Action.admin)
          · simp [hm, hc, ih]
          · simp [hm, hc]
        · simp only [Bool.not_eq_true] at hm
          simp [hm, ih]
  · have hAdmin : ([Action.admin].contains Action.admin) = true := rfl
    simp [checkPermissions, matchResource, hAdmin]

/-! ## C5: token issuance ignores the 30-day cap -/

/-- C5 counterexample: with a configured lifetime of 31 days — over the
30-day `TOKEN_MAX_LIFETIME_SECONDS` cap — `generateToken` does not fail with
`ExpiredConfiguration`: it returns an ordinary signed token whose payload
carries the over-cap expiry. -/
theorem generateToken_no_cap_counterexample :
    (AuthService.generateToken
        { secret := "k", tokenExpiry := 31 * 24 * 60 * 60 * 1000 }
        "a1" "alice" [] 0) =
      { payload :=
          { agentId := "a1", agentName := "alice", permissions := []
            issuedAt := 0, expiresAt := 31 * 24 * 60 * 60 * 1000 }
        secret := "k"
        expiresInSeconds := 31 * 24 * 60 * 60 } ∧
    TOKEN_MAX_LIFETIME_MS < 31 * 24 * 60 * 60 * 1000 := by
  constructor
  · rfl
  · decide

/-- C5 amended: `generateToken` never rejects a lifetime — it has no failure
path and applies no cap — and for every configured lifetime it issues a token
whose payload carries the agent id, the agent name, the permissions,
`issuedAt = now` and `expiresAt = now + lifetime`. -/
theorem generateToken_payload_spec (svc : AuthService) (agentId agentName : String)
    (permissions : List Permission) (now : Nat) :
    (svc.generateToken agentId agentName permissions now).payload =
      { agentId := agentId, agentName := agentName, permissions := permissions
        issuedAt := now, expiresAt := now + svc.tokenExpiry } := by
  rfl

/-! ## C1: channel access-rule resolution -/

theorem checkRules_eq_find (rules : List ChannelAccessRule) (agentId : String)
    (required : ChannelAccessLevel) :
    checkRules rules agentId required =
      (rules.find? (fun r => matchRule r agentId)).map
        (fun r => accessLevelSatisfies r.level required) := by
  induction rules with
  | nil => rfl
  | cons rule rest ih =>
      by_cases hm : matchRule rule agentId = true
      · simp [checkRules, List.find?, hm]
      · simp only [Bool.not_eq_true] at hm
        simp [checkRules, List.find?, hm, ih]

/-- C1: `checkAccess(channelId, agentId, requiredLevel)` returns the verdict
of the first access rule in list order whose principal structurally matches
the agent (`all` matches any agent, `agent` only the exact id), evaluated by
`accessLevelSatisfies` under `read < write < admin`; with no matching rule it
falls back to `defaultAccess`, and with `defaultAccess = null` and no
matching rule `checkAccess(C, anyAgent, read)` is false. -/
theorem checkAccess_first_match_spec (svc : ChannelService)
    (channelId agentId : String) (requiredLevel : ChannelAccessLevel)
    (channel : Channel)
    (hch : assocFind svc.channels channelId = some channel) :
    (svc.checkAccess channelId agentId requiredLevel =
      match channel.accessRules.find? (fun r => matchRule r agentId) with
      | some r => accessLevelSatisfies r.level requiredLevel
      | none =>
          match channel.defaultAccess with
          | some lvl => accessLevelSatisfies lvl requiredLevel
          | none => false) ∧
    (channel.defaultAccess = none →
      channel.accessRules.find? (fun r => matchRule r agentId) = none →
      svc.checkAccess channelId agentId ChannelAccessLevel.read = false) := by
  constructor
  · simp only [ChannelService.checkAccess, hch, checkRules_eq_find]
    cases channel.accessRules.find? (fun r => matchRule r agentId) with
    | none => cases channel.defaultAccess <;> rfl
    | some r => rfl
  · intro hdef hfind
    simp [ChannelService.checkAccess, hch, checkRules_eq_find, hfind, hdef]

/-- C1 witness: in the fixture registry, the private channel `c1` has
`defaultAccess = null` and no rule matching agent `alice`, so read access is
denied. -/
theorem checkAccess_first_match_spec_witness :
    ChannelService.checkAccess channelSvcFix "c1" "alice"
      ChannelAccessLevel.read = false := by
  have h := checkAccess_first_match_spec channelSvcFix "c1" "alice"
    ChannelAccessLevel.read channelFix (by decide)
  exact h.2 (by decide) (by decide)

/-! ## C6: markDelivered is monotonic -/

/-- C6: `markDelivered` advances a stored message to `delivered` exactly when
its current status is `sent`; for any other current status (`delivered`,
`read`, `pending`, `failed`) the whole pipeline state is unchanged. -/
theorem markDelivered_monotonic (svc : MessageService) (messageId : String)
    (message : Message) (hm : svc.getById messageId = some message) :
    (message.deliveryStatus = MessageDeliveryStatus.sent →
      (svc.markDelivered messageId).getById messageId =
        some { message with deliveryStatus := MessageDeliveryStatus.delivered }) ∧
    (message.deliveryStatus ≠ MessageDeliveryStatus.sent →
      svc.markDelivered messageId = svc) := by
  simp only [MessageService.getById] at hm
  constructor
  · intro hs
    simp [MessageService.markDelivered, MessageService.getById, hm, hs,
      assocFind_assocSet_self]
  · intro hs
    simp [MessageService.markDelivered, MessageService.getById, hm, hs]

/-- C6 witness: in the fixture store, message `m2` is already `delivered`
and `markDelivered` leaves the pipeline unchanged, while `m1` is `sent` and
advances to `delivered`. -/
theorem markDelivered_monotonic_witness :
    MessageService.markDelivered msgStoreFix "m2" = msgStoreFix ∧
    (MessageService.markDelivered msgStoreFix "m1").getById "m1" =
      some { messageSentFix with deliveryStatus := MessageDeliveryStatus.delivered } := by
  constructor
  · exact (markDelivered_monotonic msgStoreFix "m2" messageDeliveredFix
      (by decide)).2 (by decide)
  · exact (markDelivered_monotonic msgStoreFix "m1" messageSentFix
      (by decide)).1 (by decide)

/-! ## C3: send without write access fails cleanly -/

/-- C3: a channel send by a sender without write access on the target
channel (per `ChannelRegistry.checkAccess`) fails with `PermissionDenied`
and leaves the whole pipeline state unchanged: no message is created,
stored, indexed, or pushed to the relay. -/
theorem send_permission_denied (svc : MessageService) (input : MessageSendInput)
    (senderId id now : String) (cs : ChannelService)
    (hcs : svc.channelService = some cs)
    (ht : input.targetType = TargetType.channel)
    (hacc : cs.checkAccess input.targetId senderId ChannelAccessLevel.write = false) :
    svc.send input senderId id now =
      (Except.error ServiceError.permissionDenied, svc) := by
  have hden : svc.sendDenied input senderId = true := by
    simp [MessageService.sendDenied, ht, hcs, hacc]
  simp [MessageService.send, hden]

/-- C3 witness: `mallory` has no write access on the private fixture channel
`c1`, so the send fails with `PermissionDenied` and the pipeline state is
unchanged. -/
theorem send_permission_denied_witness :
    MessageService.send msgSvcFix sendInputChannelFix "mallory" "m9" "t1" =
      (Except.error ServiceError.permissionDenied, msgSvcFix) :=
  send_permission_denied msgSvcFix sendInputChannelFix "mallory" "m9" "t1"
    channelSvcFix (by decide) (by decide) (by decide)

/-! ## Helper lemmas about send and edit -/

theorem broadcastMessage_messages (svc : MessageService) (message : Message) :
    (svc.broadcastMessage message).messages = svc.messages := by
  simp [MessageService.broadcastMessage]

theorem broadcastMessage_signingKey (svc : MessageService) (message : Message) :
    (svc.broadcastMessage message).signingKey = svc.signingKey := by
  simp [MessageService.broadcastMessage]

theorem send_components (svc : MessageService) (input : MessageSendInput)
    (senderId id now : String)
    (h : svc.sendDenied input senderId = false) :
    (svc.send input senderId id now).1 =
        Except.ok (svc.sentMessage input senderId id now) ∧
    (svc.send input senderId id now).2.messages =
        assocSet svc.messages id (svc.sentMessage input senderId id now) ∧
    (svc.send input senderId id now).2.signingKey = svc.signingKey := by
  refine ⟨?_, ?_, ?_⟩ <;>
    simp only [MessageService.send, h, Bool.false_eq_true, if_false,
      broadcastMessage_messages, broadcastMessage_signingKey] <;>
    split <;> split <;> rfl

theorem edit_success (svc : MessageService) (messageId newText editorId now : String)
    (m : Message) (hm : assocFind svc.messages messageId = some m)
    (hs : m.senderId = editorId) :
    (svc.edit messageId newText editorId now).1 = Except.ok true ∧
    (svc.edit messageId newText editorId now).2.messages =
      assocSet svc.messages messageId
        { m with
            content := { m.content with text := newText }
            editedAt := some now
            signature := signMessage svc.signingKey m.id m.senderId
              { m.content with text := newText } m.sentAt } ∧
    (svc.edit messageId newText editorId now).2.signingKey = svc.signingKey := by
  refine ⟨?_, ?_, ?_⟩ <;> simp [MessageService.edit, hm, hs]

/-! ## C4: signature round-trip across send, tamper, edit -/

/-- C4: every message returned by `send` verifies immediately; after
directly changing `content.text` without `edit`, verification fails; and
after `edit` (which recomputes the signature over id, senderId, content,
sentAt) the stored message verifies again. -/
theorem send_sign_roundtrip (svc : MessageService) (input : MessageSendInput)
    (senderId id now : String) (m : Message)
    (hsend : (svc.send input senderId id now).1 = Except.ok m) :
    ((svc.send input senderId id now).2.verifySignature m = true) ∧
    (∀ t, t ≠ m.content.text →
      (svc.send input senderId id now).2.verifySignature
        { m with content := { m.content with text := t } } = false) ∧
    (∀ t2 now2, ∃ m2,
      (((svc.send input senderId id now).2.edit m.id t2 m.senderId now2).2).getById
          m.id = some m2 ∧
      (((svc.send input senderId id now).2.edit m.id t2 m.senderId now2).2).verifySignature
          m2 = true ∧
      m2.content.text = t2) := by
  have hden : svc.sendDenied input senderId = false := by
    cases hd : svc.sendDenied input senderId with
    | false => rfl
    | true =>
        exfalso
        have : (svc.send input senderId id now).1 =
            Except.error ServiceError.permissionDenied := by
          simp [MessageService.send, hd]
        rw [this] at hsend
        exact Except.noConfusion hsend
  obtain ⟨h1, h2, h3⟩ := send_components svc input senderId id now hden
  have hm : m = svc.sentMessage input senderId id now := by
    rw [hsend] at h1
    exact Except.ok.inj h1
  subst hm
  refine ⟨?_, ?_, ?_⟩
  · simp [MessageService.verifySignature, MessageService.sentMessage, h3]
  · intro t ht
    simp only [MessageService.verifySignature, MessageService.sentMessage, h3,
      signMessage, decide_eq_false_iff_not]
    intro hcontra
    have := congrArg (fun s => s.payload.content.text) hcontra
    simp [MessageService.sentContent] at this
    exact ht this.symm
  · intro t2 now2
    have hfind : assocFind ((svc.send input senderId id now).2).messages
        (svc.sentMessage input senderId id now).id =
        some (svc.sentMessage input senderId id now) := by
      rw [h2]
      exact assocFind_assocSet_self _ _ _
    obtain ⟨e1, e2, e3⟩ := edit_success ((svc.send input senderId id now).2)
      (svc.sentMessage input senderId id now).id t2
      (svc.sentMessage input senderId id now).senderId now2
      (svc.sentMessage input senderId id now) hfind rfl
    have hstore : (((svc.send input senderId id now).2.edit
          (svc.sentMessage input senderId id now).id t2
          (svc.sentMessage input senderId id now).senderId now2).2).getById
          (svc.sentMessage input senderId id now).id =
        some { svc.sentMessage input senderId id now with
                content := { (svc.sentMessage input senderId id now).content with
                  text := t2 }
                editedAt := some now2
                signature := signMessage ((svc.send input senderId id now).2).signingKey
                  (svc.sentMessage input senderId id now).id
                  (svc.sentMessage input senderId id now).senderId
                  { (svc.sentMessage input senderId id now).content with text := t2 }
                  (svc.sentMessage input senderId id now).sentAt } := by
      simp only [MessageService.getById, e2]
      exact assocFind_assocSet_self _ _ _
    refine ⟨_, hstore, ?_, rfl⟩
    simp [MessageService.verifySignature, e3, h3]

/-- C4 witness: a direct-to-agent send from the fixture pipeline verifies,
a tampered copy fails verification, and the edited stored message verifies
again. -/
theorem send_sign_roundtrip_witness :
    ((MessageService.send msgSvcFix sendInputAgentFix "alice" "m1" "t0").2.verifySignature
        (MessageService.sentMessage msgSvcFix sendInputAgentFix "alice" "m1" "t0") = true) ∧
    ((MessageService.send msgSvcFix sendInputAgentFix "alice" "m1" "t0").2.verifySignature
        { MessageService.sentMessage msgSvcFix sendInputAgentFix "alice" "m1" "t0" with
            content := { (MessageService.sentMessage msgSvcFix sendInputAgentFix
              "alice" "m1" "t0").content with text := "forged" } } = false) := by
  have h := send_sign_roundtrip msgSvcFix sendInputAgentFix "alice" "m1" "t0"
    (MessageService.sentMessage msgSvcFix sendInputAgentFix "alice" "m1" "t0")
    (by rfl)
  exact ⟨h.1, h.2.1 "forged" (by decide)⟩

/-! ## C10: frame condition of edit -/

/-- C10: a successful `edit` changes only `content.text`, `editedAt`, and
`signature`; `content.mentions` (never re-extracted, still describing the
pre-edit text), `content.data`, `content.attachments`, `sentAt`,
`deliveryStatus`, `threadId`, `senderId`, and every remaining field are
unchanged. -/
theorem edit_frame_condition (svc : MessageService)
    (messageId newText editorId now : String) (m : Message)
    (hm : svc.getById messageId = some m) (hs : m.senderId = editorId) :
    ∃ m2, (svc.edit messageId newText editorId now).1 = Except.ok true ∧
      (svc.edit messageId newText editorId now).2.getById messageId = some m2 ∧
      m2.content.text = newText ∧
      m2.editedAt = some now ∧
      m2.signature = signMessage svc.signingKey m.id m.senderId m2.content m.sentAt ∧
      m2.content.mentions = m.content.mentions ∧
      m2.content.data = m.content.data ∧
      m2.content.attachments = m.content.attachments ∧
      m2.sentAt = m.sentAt ∧
      m2.deliveryStatus = m.deliveryStatus ∧
      m2.threadId = m.threadId ∧
      m2.senderId = m.senderId ∧
      m2.id = m.id ∧
      m2.targetId = m.targetId ∧
      m2.targetType = m.targetType ∧
      m2.type = m.type ∧
      m2.projectId = m.projectId ∧
      m2.correlationId = m.correlationId ∧
      m2.deletedAt = m.deletedAt := by
  simp only [MessageService.getById] at hm
  obtain ⟨e1, e2, _⟩ := edit_success svc messageId newText editorId now m hm hs
  have hstore : (svc.edit messageId newText editorId now).2.getById messageId =
      some { m with
              content := { m.content with text := newText }
              editedAt := some now
              signature := signMessage svc.signingKey m.id m.senderId
                { m.content with text := newText } m.sentAt } := by
    simp only [MessageService.getById, e2]
    exact assocFind_assocSet_self _ _ _
  exact ⟨_, e1, hstore, rfl, rfl, rfl, rfl, rfl, rfl, rfl, rfl, rfl, rfl,
    rfl, rfl, rfl, rfl, rfl, rfl, rfl⟩

/-- C10 witness: editing the stored fixture message `m1` as its sender
changes the text and timestamps while keeping mentions, data, attachments,
delivery status, and identity fields intact. -/
theorem edit_frame_condition_witness :
    ∃ m2, (MessageService.edit msgStoreFix "m1" "bye" "alice" "t1").1 =
        Except.ok true ∧
      (MessageService.edit msgStoreFix "m1" "bye" "alice" "t1").2.getById "m1" =
        some m2 ∧
      m2.content.text = "bye" ∧
      m2.editedAt = some "t1" ∧
      m2.signature = signMessage msgStoreFix.signingKey messageSentFix.id
        messageSentFix.senderId m2.content messageSentFix.sentAt ∧
      m2.content.mentions = messageSentFix.content.mentions ∧
      m2.content.data = messageSentFix.content.data ∧
      m2.content.attachments = messageSentFix.content.attachments ∧
      m2.sentAt = messageSentFix.sentAt ∧
      m2.deliveryStatus = messageSentFix.deliveryStatus ∧
      m2.threadId = messageSentFix.threadId ∧
      m2.senderId = messageSentFix.senderId ∧
      m2.id = messageSentFix.id ∧
      m2.targetId = messageSentFix.targetId ∧
      m2.targetType = messageSentFix.targetType ∧
      m2.type = messageSentFix.type ∧
      m2.projectId = messageSentFix.projectId ∧
      m2.correlationId = messageSentFix.correlationId ∧
      m2.deletedAt = messageSentFix.deletedAt := by
  exact edit_frame_condition msgStoreFix "m1" "bye" "alice" "t1" messageSentFix
    (by decide) (by decide)

/-! ## C7: membership-count invariant and join idempotence -/

theorem memberCountInv_empty (projectId : String) :
    MemberCountInv (ChannelService.empty projectId) := by
  intro cid ch h
  simp [ChannelService.empty, assocFind, List.find?] at h

theorem memberCountInv_create (svc : ChannelService) (input : ChannelCreateInput)
    (createdBy id now : String) (hInv : MemberCountInv svc) :
    MemberCountInv (svc.create input createdBy id now).2 := by
  by_cases hname : assocHas svc.nameIndex input.name = true
  · simpa [ChannelService.create, hname] using hInv
  · intro cid ch hfind
    simp only [ChannelService.create, hname, Bool.false_eq_true, if_false] at hfind ⊢
    by_cases hcid : id = cid
    · subst hcid
      rw [assocFind_assocSet_self] at hfind
      refine ⟨[], ?_, ?_, List.nodup_nil⟩
      · exact assocFind_assocSet_self _ _ _
      · cases hfind
        rfl
    · rw [assocFind_assocSet_ne _ _ _ _ hcid] at hfind
      obtain ⟨ms, hms, hc, hnd⟩ := hInv cid ch hfind
      exact ⟨ms, by rw [assocFind_assocSet_ne _ _ _ _ hcid]; exact hms, hc, hnd⟩

theorem memberCountInv_join (svc : ChannelService) (channelId agentId : String)
    (hInv : MemberCountInv svc) : MemberCountInv (svc.join channelId agentId).2 := by
  cases hch : assocFind svc.channels channelId with
  | none => simpa [ChannelService.join, hch] using hInv
  | some channel =>
      by_cases hacc : svc.checkAccess channelId agentId ChannelAccessLevel.read = true
      · cases hms : assocFind svc.memberships channelId with
        | none => simpa [ChannelService.join, hch, hacc, hms] using hInv
        | some members =>
            by_cases hmem : agentId ∈ members
            · simpa [ChannelService.join, hch, hacc, hms, hmem] using hInv
            · intro cid ch hfind
              simp only [ChannelService.join, hch, hacc, hms, hmem,
                not_true_eq_false, if_false, not_false_eq_true, if_true,
                if_false] at hfind ⊢
              by_cases hcid : channelId = cid
              · subst hcid
                rw [assocFind_assocSet_self] at hfind
                obtain ⟨ms0, hms0, _, hnd0⟩ := hInv channelId channel hch
                rw [hms] at hms0
                cases hms0
                refine ⟨members ++ [agentId], assocFind_assocSet_self _ _ _, ?_, ?_⟩
                · cases hfind
                  rfl
                · simp [List.nodup_append, hnd0, hmem]
              · rw [assocFind_assocSet_ne _ _ _ _ hcid] at hfind
                obtain ⟨ms, hms2, hc, hnd⟩ := hInv cid ch hfind
                exact ⟨ms, by rw [assocFind_assocSet_ne _ _ _ _ hcid]; exact hms2,
                  hc, hnd⟩
      · simpa [ChannelService.join, hch, hacc] using hInv

theorem memberCountInv_leave (svc : ChannelService) (channelId agentId : String)
    (hInv : MemberCountInv svc) : MemberCountInv (svc.leave channelId agentId).2 := by
  cases hch : assocFind svc.channels channelId with
  | none => simpa [ChannelService.leave, hch] using hInv
  | some channel =>
      cases hms : assocFind svc.memberships channelId with
      | none => simpa [ChannelService.leave, hch, hms] using hInv
      | some members =>
          by_cases hmem : agentId ∈ members
          · intro cid ch hfind
            simp only [ChannelService.leave, hch, hms, hmem, if_true] at hfind ⊢
            by_cases hcid : channelId = cid
            · subst hcid
              rw [assocFind_assocSet_self] at hfind
              obtain ⟨ms0, hms0, _, hnd0⟩ := hInv channelId channel hch
              rw [hms] at hms0
              cases hms0
              refine ⟨members.filter (fun m => m ≠ agentId),
                assocFind_assocSet_self _ _ _, ?_, hnd0.filter _⟩
              cases hfind
              rfl
            · rw [assocFind_assocSet_ne _ _ _ _ hcid] at hfind
              obtain ⟨ms, hms2, hc, hnd⟩ := hInv cid ch hfind
              exact ⟨ms, by rw [assocFind_assocSet_ne _ _ _ _ hcid]; exact hms2,
                hc, hnd⟩
          · simpa [ChannelService.leave, hch, hms, hmem] using hInv

theorem join_noop_of_member (svc : ChannelService) (channelId agentId : String)
    (channel : Channel) (hch : assocFind svc.channels channelId = some channel)
    (hacc : svc.checkAccess channelId agentId ChannelAccessLevel.read = true)
    (members : List String)
    (hms : assocFind svc.memberships channelId = some members)
    (hmem : agentId ∈ members) :
    svc.join channelId agentId = (Except.ok true, svc) := by
  simp [ChannelService.join, hch, hacc, hms, hmem]

theorem memberCountInv_applyOp (svc : ChannelService) (op : ChannelOp)
    (hInv : MemberCountInv svc) : MemberCountInv (svc.applyOp op) := by
  cases op with
  | create input createdBy id now => exact memberCountInv_create svc input createdBy id now hInv
  | join channelId agentId => exact memberCountInv_join svc channelId agentId hInv
  | leave channelId agentId => exact memberCountInv_leave svc channelId agentId hInv

theorem memberCountInv_applyOps (svc : ChannelService) (ops : List ChannelOp)
    (hInv : MemberCountInv svc) : MemberCountInv (svc.applyOps ops) := by
  induction ops generalizing svc with
  | nil => exact hInv
  | cons op rest ih =>
      exact ih (svc.applyOp op) (memberCountInv_applyOp svc op hInv)

theorem memberCountInv_init (projectId idGeneral idAnnouncements now : String) :
    MemberCountInv (ChannelService.init projectId idGeneral idAnnouncements now) := by
  exact memberCountInv_create _ _ _ _ _
    (memberCountInv_create _ _ _ _ _ (memberCountInv_empty projectId))

/-- C7: starting from the registry constructor (which creates the default
channels), after any sequence of create/join/leave operations every
channel's `memberCount` equals the size of its duplicate-free live
membership set; and after a successful `join`, joining again leaves the
whole registry state (hence `memberCount`) unchanged while the agent
appears in the membership set exactly once. -/
theorem memberCount_invariant_and_join_idempotent
    (projectId idGeneral idAnnouncements now : String) (ops : List ChannelOp)
    (svc : ChannelService) (channelId agentId : String)
    (hInv : MemberCountInv svc)
    (hok : (svc.join channelId agentId).1 = Except.ok true) :
    MemberCountInv
      ((ChannelService.init projectId idGeneral idAnnouncements now).applyOps ops) ∧
    ((svc.join channelId agentId).2.join channelId agentId).2 =
      (svc.join channelId agentId).2 ∧
    ∃ ms, assocFind ((svc.join channelId agentId).2).memberships channelId =
      some ms ∧ ms.count agentId = 1 := by
  refine ⟨memberCountInv_applyOps _ ops
    (memberCountInv_init projectId idGeneral idAnnouncements now), ?_⟩
  cases hch : assocFind svc.channels channelId with
  | none => simp [ChannelService.join, hch] at hok
  | some channel =>
      by_cases hacc : svc.checkAccess channelId agentId ChannelAccessLevel.read = true
      · cases hms : assocFind svc.memberships channelId with
        | none => simp [ChannelService.join, hch, hacc, hms] at hok
        | some members =>
            obtain ⟨ms0, hms0, _, hnd0⟩ := hInv channelId channel hch
            rw [hms] at hms0
            cases hms0
            by_cases hmem : agentId ∈ members
            · have hstate : (svc.join channelId agentId).2 = svc := by
                rw [join_noop_of_member svc channelId agentId channel hch hacc
                  members hms hmem]
              rw [hstate]
              refine ⟨hstate, members, hms, ?_⟩
              exact List.count_eq_one_of_mem hnd0 hmem
            · have hstate : (svc.join channelId agentId).2 =
                  { svc with
                      memberships := assocSet svc.memberships channelId
                        (members ++ [agentId])
                      channels := assocSet svc.channels channelId
                        { channel with memberCount := (members ++ [agentId]).length }
                      relaySubs := svc.relaySubs ++ [(agentId, channelId)] } := by
                simp [ChannelService.join, hch, hacc, hms, hmem]
              have hch2 : assocFind ((svc.join channelId agentId).2).channels
                  channelId = some
                  { channel with memberCount := (members ++ [agentId]).length } := by
                rw [hstate]
                exact assocFind_assocSet_self _ _ _
              have hms2 : assocFind ((svc.join channelId agentId).2).memberships
                  channelId = some (members ++ [agentId]) := by
                rw [hstate]
                exact assocFind_assocSet_self _ _ _
              have hacc2 : ((svc.join channelId agentId).2).checkAccess channelId
                  agentId ChannelAccessLevel.read = true := by
                unfold ChannelService.checkAccess at hacc ⊢
                rw [hch2]
                rw [hch] at hacc
                exact hacc
              have hmem2 : agentId ∈ members ++ [agentId] := by simp
              refine ⟨?_, members ++ [agentId], hms2, ?_⟩
              · rw [join_noop_of_member ((svc.join channelId agentId).2) channelId
                  agentId _ hch2 hacc2 (members ++ [agentId]) hms2 hmem2]
              · simp [List.count_append, List.count_eq_zero.2 hmem]
      · simp [ChannelService.join, hch, hacc] at hok

/-- C7 witness: on the freshly constructed registry, `alice` joins the
public `general` channel; a second join changes nothing and she is a member
exactly once, and the invariant holds after the operation sequence. -/
theorem memberCount_invariant_and_join_idempotent_witness :
    MemberCountInv
      ((ChannelService.init "p" "chG" "chA" "t0").applyOps
        [ChannelOp.join "chG" "alice"]) ∧
    (((ChannelService.init "p" "chG" "chA" "t0").join "chG" "alice").2.join
        "chG" "alice").2 =
      ((ChannelService.init "p" "chG" "chA" "t0").join "chG" "alice").2 ∧
    ∃ ms, assocFind
        (((ChannelService.init "p" "chG" "chA" "t0").join "chG" "alice").2).memberships
        "chG" = some ms ∧ ms.count "alice" = 1 :=
  memberCount_invariant_and_join_idempotent "p" "chG" "chA" "t0"
    [ChannelOp.join "chG" "alice"] (ChannelService.init "p" "chG" "chA" "t0")
    "chG" "alice" (memberCountInv_init "p" "chG" "chA" "t0") (by rfl)

/-! ## C8: heartbeat-timeout state machine -/

/-- C8: for an agent connected at t=0 with no subsequent heartbeat, a
heartbeat-checker run with elapsed time over 60s (but not over the 120s
offline bound, which takes priority in the checker's else-if) while the
status is `online` sets the status to `idle`; a run with elapsed time over
120s while the status is not `offline` disconnects the agent with reason
`timeout`, broadcasting an offline presence change and removing the
presence record from the presence set. -/
theorem checkHeartbeats_timeout_spec (svc : PresenceService) (agentId : String)
    (p : Presence) (now : Int)
    (hp : svc.presences = [(agentId, p)])
    (hhb : p.lastHeartbeat = 0) (hst : p.status = PresenceStatus.online) :
    (60000 < now → ¬ 120000 < now →
      assocFind ((svc.checkHeartbeats now)).presences agentId =
        some { p with status := PresenceStatus.idle, statusMessage := none
                      lastHeartbeat := now } ∧
      (svc.checkHeartbeats now).broadcasts = svc.broadcasts ++
        [{ agentId := agentId, status := PresenceStatus.idle, reason := none
           previousStatus := some PresenceStatus.online, timestamp := now }]) ∧
    (120000 < now →
      assocFind ((svc.checkHeartbeats now)).presences agentId = none ∧
      (svc.checkHeartbeats now).broadcasts = svc.broadcasts ++
        [{ agentId := agentId, status := PresenceStatus.offline
           reason := some "timeout", previousStatus := none, timestamp := now }]) := by
  have hfindp : assocFind svc.presences agentId = some p := by
    rw [hp]
    simp [assocFind, List.find?]
  have hfold : svc.checkHeartbeats now = checkHeartbeatStep now svc agentId := by
    simp [PresenceService.checkHeartbeats, hp]
  constructor
  · intro h60 h120
    have hcond1 : ¬ (now - p.lastHeartbeat > OFFLINE_TIMEOUT ∧
        p.status ≠ PresenceStatus.offline) := by
      rw [hhb]
      intro hcontra
      apply h120
      have := hcontra.1
      simp only [OFFLINE_TIMEOUT] at this
      omega
    have hcond2 : now - p.lastHeartbeat > IDLE_TIMEOUT ∧
        p.status = PresenceStatus.online := by
      refine ⟨?_, hst⟩
      rw [hhb]
      simp only [IDLE_TIMEOUT]
      omega
    rw [hfold]
    simp only [checkHeartbeatStep, hfindp]
    rw [if_neg hcond1, if_pos hcond2]
    simp [PresenceService.setStatus, hfindp, hp, hst, assocSet, assocFind,
      List.find?]
  · intro h120
    have hcond1 : now - p.lastHeartbeat > OFFLINE_TIMEOUT ∧
        p.status ≠ PresenceStatus.offline := by
      refine ⟨?_, ?_⟩
      · rw [hhb]
        simp only [OFFLINE_TIMEOUT]
        omega
      · rw [hst]
        intro hcontra
        exact PresenceStatus.noConfusion hcontra
    rw [hfold]
    simp only [checkHeartbeatStep, hfindp]
    rw [if_pos hcond1]
    simp [PresenceService.disconnect, hfindp, hp, assocFind, List.find?]

/-- C8 witness: for the fixture agent connected at time 0, a checker run at
90s leaves an idle record, and a run at 121s removes the record and
broadcasts the timeout disconnect. -/
theorem checkHeartbeats_timeout_spec_witness :
    (assocFind ((presenceSvcFix.checkHeartbeats 90000)).presences "a" =
      some { presenceFix with status := PresenceStatus.idle
                              statusMessage := none, lastHeartbeat := 90000 }) ∧
    (assocFind ((presenceSvcFix.checkHeartbeats 121000)).presences "a" = none) ∧
    (presenceSvcFix.checkHeartbeats 121000).broadcasts =
      presenceSvcFix.broadcasts ++
        [{ agentId := "a", status := PresenceStatus.offline
           reason := some "timeout", previousStatus := none, timestamp := 121000 }] := by
  have h1 := checkHeartbeats_timeout_spec presenceSvcFix "a" presenceFix 90000
    (by rfl) (by rfl) (by rfl)
  have h2 := checkHeartbeats_timeout_spec presenceSvcFix "a" presenceFix 121000
    (by rfl) (by rfl) (by rfl)
  exact ⟨(h1.1 (by decide) (by decide)).1, (h2.2 (by decide)).1,
    (h2.2 (by decide)).2⟩

/-! ## C9: sendWithAck resolves or rejects exactly once -/

theorem any_eq_timerArmed (c : String) (s : RelayAckState) :
    (s.activeTimers.any (fun t => t.1 = c) = true) ↔ timerArmed c s := by
  simp [timerArmed, List.any_eq_true]

theorem mem_filter_ne (cid c : String) (hc : cid ≠ c) (l : List String) :
    cid ∈ l.filter (fun x => x ≠ c) ↔ cid ∈ l := by
  simp [List.mem_filter, hc]

theorem not_mem_filter_self (c : String) (l : List String) :
    c ∉ l.filter (fun x => x ≠ c) := by
  simp [List.mem_filter]

theorem armed_filter_ne (cid c : String) (hc : cid ≠ c)
    (l : List (String × Nat)) :
    (∃ t ∈ l.filter (fun t => t.1 ≠ c), t.1 = cid) ↔ ∃ t ∈ l, t.1 = cid := by
  constructor
  · rintro ⟨t, ht, hteq⟩
    exact ⟨t, (List.mem_filter.mp ht).1, hteq⟩
  · rintro ⟨t, ht, hteq⟩
    refine ⟨t, List.mem_filter.mpr ⟨ht, ?_⟩, hteq⟩
    simp [hteq, hc]

theorem not_armed_filter_self (c : String) (l : List (String × Nat)) :
    ¬ ∃ t ∈ l.filter (fun t => t.1 ≠ c), t.1 = c := by
  rintro ⟨t, ht, hteq⟩
  have := (List.mem_filter.mp ht).2
  simp [hteq] at this

theorem step_ackFrame_self (cid : String) (s : RelayAckState)
    (h : AckPhase cid s) : AckSettled cid (AckEvent.step s (.ackFrame cid)) := by
  cases h with
  | inl hp =>
      obtain ⟨h1, _, _, h4⟩ := hp
      left
      simp only [AckEvent.step, if_pos h1]
      refine ⟨not_mem_filter_self cid _, not_armed_filter_self cid _, ?_, ?_⟩
      · exact List.mem_cons_self cid _
      · simpa using h4
  | inr hs =>
      have hnp : cid ∉ s.pendingAcks := by
        cases hs with
        | inl h => exact h.1
        | inr h => exact h.1
      simpa [AckEvent.step, if_neg hnp] using hs

theorem step_timerFire_self (cid : String) (s : RelayAckState)
    (h : AckPhase cid s) : AckSettled cid (AckEvent.step s (.timerFire cid)) := by
  cases h with
  | inl hp =>
      obtain ⟨_, h2, h3, _⟩ := hp
      right
      simp only [AckEvent.step, if_pos ((any_eq_timerArmed cid s).mpr h2)]
      refine ⟨not_mem_filter_self cid _, not_armed_filter_self cid _, ?_, ?_⟩
      · simpa using h3
      · exact List.mem_cons_self cid _
  | inr hs =>
      have hna : ¬ (s.activeTimers.any (fun t => t.1 = cid) = true) := by
        rw [any_eq_timerArmed]
        cases hs with
        | inl h => exact h.2.1
        | inr h => exact h.2.1
      simpa [AckEvent.step, if_neg hna] using hs

theorem step_other_preserves (cid : String) (s : RelayAckState) (e : AckEvent)
    (h1 : ∀ ms, e ≠ AckEvent.newPending cid ms)
    (h2 : e ≠ AckEvent.ackFrame cid) (h3 : e ≠ AckEvent.timerFire cid) :
    (cid ∈ (AckEvent.step s e).pendingAcks ↔ cid ∈ s.pendingAcks) ∧
    (timerArmed cid (AckEvent.step s e) ↔ timerArmed cid s) ∧
    (cid ∈ (AckEvent.step s e).resolvedAcks ↔ cid ∈ s.resolvedAcks) ∧
    (cid ∈ (AckEvent.step s e).rejectedAcks ↔ cid ∈ s.rejectedAcks) := by
  cases e with
  | ackFrame c =>
      have hc : cid ≠ c := fun h => h2 (by rw [h])
      by_cases hin : c ∈ s.pendingAcks
      · simp only [AckEvent.step, if_pos hin]
        refine ⟨?_, ?_, ?_, ?_⟩
        · exact mem_filter_ne cid c hc _
        · simpa [timerArmed] using armed_filter_ne cid c hc s.activeTimers
        · simp [List.mem_cons, hc]
        · trivial
      · simp [AckEvent.step, if_neg hin]
  | timerFire c =>
      have hc : cid ≠ c := fun h => h3 (by rw [h])
      by_cases hin : s.activeTimers.any (fun t => t.1 = c) = true
      · simp only [AckEvent.step, if_pos hin]
        refine ⟨?_, ?_, ?_, ?_⟩
        · exact mem_filter_ne cid c hc _
        · simpa [timerArmed] using armed_filter_ne cid c hc s.activeTimers
        · trivial
        · simp [List.mem_cons, hc]
      · simp [AckEvent.step, if_neg hin]
  | newPending c ms =>
      have hc : cid ≠ c := fun h => h1 ms (by rw [h])
      simp only [AckEvent.step]
      refine ⟨?_, ?_, ?_, ?_⟩
      · simp [List.mem_cons, hc]
      · constructor
        · rintro ⟨t, ht, hteq⟩
          rcases List.mem_cons.mp ht with hhead | htail
          · exact absurd (by rw [hhead] at hteq; exact hteq.symm) hc
          · exact ⟨t, htail, hteq⟩
        · rintro ⟨t, ht, hteq⟩
          exact ⟨t, List.mem_cons_of_mem _ ht, hteq⟩
      · trivial
      · trivial

theorem step_preserves_phase (cid : String) (s : RelayAckState) (e : AckEvent)
    (hnr : ∀ ms, e ≠ AckEvent.newPending cid ms)
    (h : AckPhase cid s) : AckPhase cid (AckEvent.step s e) := by
  by_cases ha : e = AckEvent.ackFrame cid
  · subst ha
    exact Or.inr (step_ackFrame_self cid s h)
  · by_cases ht : e = AckEvent.timerFire cid
    · subst ht
      exact Or.inr (step_timerFire_self cid s h)
    · obtain ⟨i1, i2, i3, i4⟩ := step_other_preserves cid s e hnr ha ht
      cases h with
      | inl hp =>
          exact Or.inl ⟨i1.mpr hp.1, i2.mpr hp.2.1, fun hx => hp.2.2.1 (i3.mp hx),
            fun hx => hp.2.2.2 (i4.mp hx)⟩
      | inr hs =>
          cases hs with
          | inl hres =>
              exact Or.inr (Or.inl ⟨fun hx => hres.1 (i1.mp hx),
                fun hx => hres.2.1 (i2.mp hx), i3.mpr hres.2.2.1,
                fun hx => hres.2.2.2 (i4.mp hx)⟩)
          | inr hrej =>
              exact Or.inr (Or.inr ⟨fun hx => hrej.1 (i1.mp hx),
                fun hx => hrej.2.1 (i2.mp hx),
                fun hx => hrej.2.2.1 (i3.mp hx), i4.mpr hrej.2.2.2⟩)

theorem step_preserves_settled (cid : String) (s : RelayAckState) (e : AckEvent)
    (hnr : ∀ ms, e ≠ AckEvent.newPending cid ms)
    (h : AckSettled cid s) : AckSettled cid (AckEvent.step s e) := by
  by_cases ha : e = AckEvent.ackFrame cid
  · subst ha
    exact step_ackFrame_self cid s (Or.inr h)
  · by_cases ht : e = AckEvent.timerFire cid
    · subst ht
      exact step_timerFire_self cid s (Or.inr h)
    · obtain ⟨i1, i2, i3, i4⟩ := step_other_preserves cid s e hnr ha ht
      cases h with
      | inl hres =>
          exact Or.inl ⟨fun hx => hres.1 (i1.mp hx),
            fun hx => hres.2.1 (i2.mp hx), i3.mpr hres.2.2.1,
            fun hx => hres.2.2.2 (i4.mp hx)⟩
      | inr hrej =>
          exact Or.inr ⟨fun hx => hrej.1 (i1.mp hx),
            fun hx => hrej.2.1 (i2.mp hx),
            fun hx => hrej.2.2.1 (i3.mp hx), i4.mpr hrej.2.2.2⟩

theorem noReuse_cons (cid : String) (e : AckEvent) (events : List AckEvent)
    (h : noReuse cid (e :: events) = true) :
    (∀ ms, e ≠ AckEvent.newPending cid ms) ∧ noReuse cid events = true := by
  simp only [noReuse, List.all_cons, Bool.and_eq_true] at h
  refine ⟨?_, h.2⟩
  intro ms heq
  subst heq
  have := h.1
  simp at this

theorem run_preserves_phase (cid : String) (s : RelayAckState)
    (events : List AckEvent) (hnr : noReuse cid events = true)
    (h : AckPhase cid s) : AckPhase cid (runAckEvents s events) := by
  induction events generalizing s with
  | nil => exact h
  | cons e rest ih =>
      obtain ⟨hh, hr⟩ := noReuse_cons cid e rest hnr
      exact ih (AckEvent.step s e) hr (step_preserves_phase cid s e hh h)

theorem run_preserves_settled (cid : String) (s : RelayAckState)
    (events : List AckEvent) (hnr : noReuse cid events = true)
    (h : AckSettled cid s) : AckSettled cid (runAckEvents s events) := by
  induction events generalizing s with
  | nil => exact h
  | cons e rest ih =>
      obtain ⟨hh, hr⟩ := noReuse_cons cid e rest hnr
      exact ih (AckEvent.step s e) hr (step_preserves_settled cid s e hh h)

theorem run_settles (cid : String) (s : RelayAckState) (events : List AckEvent)
    (hnr : noReuse cid events = true) (h : AckPhase cid s)
    (hev : AckEvent.ackFrame cid ∈ events ∨ AckEvent.timerFire cid ∈ events) :
    AckSettled cid (runAckEvents s events) := by
  induction events generalizing s with
  | nil => simp at hev
  | cons e rest ih =>
      obtain ⟨hh, hr⟩ := noReuse_cons cid e rest hnr
      by_cases ha : e = AckEvent.ackFrame cid
      · subst ha
        exact run_preserves_settled cid _ rest hr (step_ackFrame_self cid s h)
      · by_cases ht : e = AckEvent.timerFire cid
        · subst ht
          exact run_preserves_settled cid _ rest hr (step_timerFire_self cid s h)
        · have hev2 : AckEvent.ackFrame cid ∈ rest ∨ AckEvent.timerFire cid ∈ rest := by
            cases hev with
            | inl hx =>
                rcases List.mem_cons.mp hx with hhd | htl
                · exact absurd hhd.symm ha
                · exact Or.inl htl
            | inr hx =>
                rcases List.mem_cons.mp hx with hhd | htl
                · exact absurd hhd.symm ht
                · exact Or.inr htl
          exact ih (AckEvent.step s e) hr (step_preserves_phase cid s e hh h) hev2

/-- C9: `sendWithAck` attaches the fresh correlation id to the message and
registers it as pending with an armed default 5000ms timer; over any
subsequent event sequence (acks, timer firings, further sends with fresh
ids), resolve and reject never both fire, once either the matching ack frame
or the timer firing occurs exactly one of them has fired, and in either
outcome the pending-ack table no longer contains the correlation id. -/
theorem sendWithAck_exactly_one_outcome (s : RelayAckState) (message : WSMessage)
    (cid : String) (events : List AckEvent)
    (hfresh : cid ∉ s.pendingAcks ∧ ¬ timerArmed cid s ∧
      cid ∉ s.resolvedAcks ∧ cid ∉ s.rejectedAcks)
    (hnr : noReuse cid events = true) :
    ((s.sendWithAck message cid DEFAULT_ACK_TIMEOUT).1.correlationId = some cid) ∧
    (cid ∈ ((s.sendWithAck message cid DEFAULT_ACK_TIMEOUT).2).pendingAcks ∧
      (cid, DEFAULT_ACK_TIMEOUT) ∈
        ((s.sendWithAck message cid DEFAULT_ACK_TIMEOUT).2).activeTimers) ∧
    ¬ (cid ∈ (runAckEvents (s.sendWithAck message cid DEFAULT_ACK_TIMEOUT).2
          events).resolvedAcks ∧
       cid ∈ (runAckEvents (s.sendWithAck message cid DEFAULT_ACK_TIMEOUT).2
          events).rejectedAcks) ∧
    ((cid ∈ (runAckEvents (s.sendWithAck message cid DEFAULT_ACK_TIMEOUT).2
          events).resolvedAcks ∨
      cid ∈ (runAckEvents (s.sendWithAck message cid DEFAULT_ACK_TIMEOUT).2
          events).rejectedAcks) →
      cid ∉ (runAckEvents (s.sendWithAck message cid DEFAULT_ACK_TIMEOUT).2
          events).pendingAcks) ∧
    ((AckEvent.ackFrame cid ∈ events ∨ AckEvent.timerFire cid ∈ events) →
      (cid ∈ (runAckEvents (s.sendWithAck message cid DEFAULT_ACK_TIMEOUT).2
          events).resolvedAcks ∨
       cid ∈ (runAckEvents (s.sendWithAck message cid DEFAULT_ACK_TIMEOUT).2
          events).rejectedAcks)) := by
  obtain ⟨hf1, hf2, hf3, hf4⟩ := hfresh
  have hphase0 : AckPhase cid (s.sendWithAck message cid DEFAULT_ACK_TIMEOUT).2 := by
    left
    refine ⟨List.mem_cons_self cid _, ?_, ?_, ?_⟩
    · exact ⟨(cid, DEFAULT_ACK_TIMEOUT), List.mem_cons_self _ _, rfl⟩
    · simpa [RelayAckState.sendWithAck] using hf3
    · simpa [RelayAckState.sendWithAck] using hf4
  have hphase := run_preserves_phase cid _ events hnr hphase0
  refine ⟨rfl, ⟨List.mem_cons_self cid _, List.mem_cons_self _ _⟩, ?_, ?_, ?_⟩
  · intro ⟨hres, hrej⟩
    cases hphase with
    | inl hp => exact hp.2.2.1 hres
    | inr hs =>
        cases hs with
        | inl h => exact h.2.2.2 hrej
        | inr h => exact h.2.2.1 hres
  · intro hor
    cases hphase with
    | inl hp =>
        cases hor with
        | inl hx => exact absurd hx hp.2.2.1
        | inr hx => exact absurd hx hp.2.2.2
    | inr hs =>
        cases hs with
        | inl h => exact h.1
        | inr h => exact h.1
  · intro hev
    have hsettled := run_settles cid _ events hnr hphase0 hev
    cases hsettled with
    | inl h => exact Or.inl h.2.2.1
    | inr h => exact Or.inr h.2.2.2

/-- C9 witness: from the empty acknowledgment state, sending with a fresh
correlation id `c1` and then receiving the matching ack frame leaves `c1`
resolved, not rejected, and out of the pending-ack table. -/
theorem sendWithAck_exactly_one_outcome_witness :
    ((RelayAckState.empty.sendWithAck wsMessageFix "c1"
        DEFAULT_ACK_TIMEOUT).1.correlationId = some "c1") ∧
    ¬ ("c1" ∈ (runAckEvents (RelayAckState.empty.sendWithAck wsMessageFix "c1"
          DEFAULT_ACK_TIMEOUT).2 [AckEvent.ackFrame "c1"]).resolvedAcks ∧
       "c1" ∈ (runAckEvents (RelayAckState.empty.sendWithAck wsMessageFix "c1"
          DEFAULT_ACK_TIMEOUT).2 [AckEvent.ackFrame "c1"]).rejectedAcks) ∧
    ("c1" ∈ (runAckEvents (RelayAckState.empty.sendWithAck wsMessageFix "c1"
          DEFAULT_ACK_TIMEOUT).2 [AckEvent.ackFrame "c1"]).resolvedAcks ∨
     "c1" ∈ (runAckEvents (RelayAckState.empty.sendWithAck wsMessageFix "c1"
          DEFAULT_ACK_TIMEOUT).2 [AckEvent.ackFrame "c1"]).rejectedAcks) ∧
    "c1" ∉ (runAckEvents (RelayAckState.empty.sendWithAck wsMessageFix "c1"
          DEFAULT_ACK_TIMEOUT).2 [AckEvent.ackFrame "c1"]).pendingAcks := by
  have h := sendWithAck_exactly_one_outcome RelayAckState.empty wsMessageFix "c1"
    [AckEvent.ackFrame "c1"]
    ⟨by simp [RelayAckState.empty], by simp [timerArmed, RelayAckState.empty],
     by simp [RelayAckState.empty], by simp [RelayAckState.empty]⟩
    (by rfl)
  have hone := h.2.2.2.2 (Or.inl (List.mem_cons_self _ _))
  exact ⟨h.1, h.2.2.1, hone, h.2.2.2.1 hone⟩

end Moltslack
